import Mathlib

/-!
Verification of the Conway's-Life simulation core of
`src/trunk/src/experimental/life2011/life_stage_2/life.h` (class `life::Life`).

The repository contains only the header; the method bodies (`life.cc`) and the
stamp data type (`stamp.h`) are declared but absent. Where a definition embeds
code that is not under `src/`, its doc comment starts with
`Modelled from the spec:` and it follows the specification's words; definitions
for code that is present in the header (`width()`, `height()`) are translated
from that code directly.

Machine integers: the cell buffers hold 0/1 byte values, modelled as `Bool`;
`unsigned int` seeds are `Nat` reduced mod 2^31 where the modelled generator
steps; `int` pixel dimensions are `Int`.
-/

/-- An automaton rule: the survive neighbor-count set and the birth
neighbor-count set, each listed as digits parsed from a "S/B" string. -/
structure Rule where
  survive : List Nat
  birth : List Nat
deriving DecidableEq, Repr

/-- The double-buffered cell grid of the `Life` instance: dimensions, the
current buffer `cell_in_`, the next buffer `cell_out_` (field names from
life.h lines 217-218), and the active automaton rule.

Modelled from the spec: the rule storage itself lives in the absent life.cc;
the spec's data model says the active survive/birth rule is grid state that
`SetRule` replaces atomically or leaves unchanged. -/
structure GridState where
  width : Nat
  height : Nat
  cell_in_ : Nat → Nat → Bool
  cell_out_ : Nat → Nat → Bool
  rule : Rule

/-- Count of alive cells in the 8-neighborhood of interior cell (x, y),
read from a single buffer. -/
def neighborCount (cur : Nat → Nat → Bool) (x y : Nat) : Nat :=
  (cur (x - 1) (y - 1)).toNat + (cur x (y - 1)).toNat + (cur (x + 1) (y - 1)).toNat +
  (cur (x - 1) y).toNat + (cur (x + 1) y).toNat +
  (cur (x - 1) (y + 1)).toNat + (cur x (y + 1)).toNat + (cur (x + 1) (y + 1)).toNat

/-- The automaton transition for one cell: an alive cell stays alive iff its
neighbor count is in the survive set; a dead cell becomes alive iff the count
is in the birth set; otherwise the cell is dead. -/
def nextState (r : Rule) (alive : Bool) (count : Nat) : Bool :=
  if alive then r.survive.contains count else r.birth.contains count

/-- Modelled from the spec: `Life::UpdateCells` (declared at life.h line 171,
body in the absent life.cc). For every interior cell it applies the automaton
rule to the neighbor count read from the current buffer `cell_in_`, writing the
result into the next buffer `cell_out_`; `cell_in_` is left untouched during
the pass. Border cells of the next buffer are carried over from the current
buffer (the spec has the noise-injection pass rewrite them each tick). -/
def UpdateCells (g : GridState) : GridState :=
  { g with cell_out_ := fun x y =>
      if 1 ≤ x ∧ x + 1 < g.width ∧ 1 ≤ y ∧ y + 1 < g.height then
        nextState g.rule (g.cell_in_ x y) (neighborCount g.cell_in_ x y)
      else g.cell_in_ x y }

/-- Modelled from the spec: `Life::Swap` (declared at life.h line 174, body in
the absent life.cc) swaps the current/next roles of the two cell buffers. -/
def Swap (g : GridState) : GridState :=
  { g with cell_in_ := g.cell_out_, cell_out_ := g.cell_in_ }

/-- One simulation step: compute next states into the next buffer, then swap
the buffer roles. -/
def Step (g : GridState) : GridState := Swap (UpdateCells g)

/-- Test for a rule digit character. -/
def isRuleDigit (c : Char) : Bool := decide ('0' ≤ c) && decide (c ≤ '9')

/-- Numeric value of a digit character. -/
def digitVal (c : Char) : Nat := c.toNat - '0'.toNat

/-- Split a character list at the first '/' separator, returning the halves
before and after it; `none` when no separator is present. -/
def splitAtSlash : List Char → Option (List Char × List Char)
  | [] => none
  | c :: rest =>
    if c = '/' then some ([], rest)
    else (splitAtSlash rest).map (fun p => (c :: p.1, p.2))

/-- Modelled from the spec: the rule-string parsing done by
`Life::SetAutomatonRules` (declared at life.h lines 53-58, body in the absent
life.cc). The format is "survive-digits/birth-digits"; each digit 0-9 is an
allowed neighbor count. Malformed input (missing separator, empty halves,
non-digit characters outside the separator) yields `none`. -/
def checkRuleHalves (sv bt : List Char) : Option Rule :=
  if sv ≠ [] ∧ bt ≠ [] ∧ sv.all isRuleDigit ∧ bt.all isRuleDigit then
    some ⟨sv.map digitVal, bt.map digitVal⟩
  else none

/-- Modelled from the spec: full rule-string parsing — split at the
separator, then validate the two halves. -/
def parseRuleChars (cs : List Char) : Option Rule :=
  (splitAtSlash cs).bind fun p => checkRuleHalves p.1 p.2

/-- Modelled from the spec: `Life::SetAutomatonRules`. A well-formed rule
string replaces the active rule; a malformed one is rejected and the prior
rule is retained — failure is signalled only by leaving state unchanged, and
the operation is total (never a fatal error). -/
def SetAutomatonRules (g : GridState) (rule_string : String) : GridState :=
  match parseRuleChars rule_string.toList with
  | some r => { g with rule := r }
  | none => g

/-- The standard Conway rule, as parsed from "23/3". -/
def conwayRule : Rule := ⟨[2, 3], [3]⟩

/-- A 5x5 all-dead grid used as a concrete evaluation point. -/
def gBlank : GridState := ⟨5, 5, fun _ _ => false, fun _ _ => false, conwayRule⟩

/-- A 5x5 grid whose current buffer holds a horizontal 3-cell blinker at
row 2, columns 1-3 (all interior cells, away from the border), with the
Conway rule "23/3" active and the next buffer all dead. -/
def blinkerGrid : GridState :=
  ⟨5, 5, fun x y => decide (y = 2 ∧ (x = 1 ∨ x = 2 ∨ x = 3)), fun _ _ => false, conwayRule⟩

/-- The simulation-thread lifecycle states of life.h lines 118-121. -/
inductive SimulationState
  | kStopped
  | kRunning
deriving DecidableEq, Repr

/-- The play modes of life.h lines 30-33, set by `RunSimulation`. -/
inductive PlayMode
  | kRandomSeedMode
  | kStampMode
deriving DecidableEq, Repr

/-- Thread-lifecycle actions the controller performs on the simulation
thread, recorded so theorems can speak about stop/join/spawn ordering. -/
inductive ThreadAction
  | signalStop
  | joinThread
  | spawnThread (mode : PlayMode)
deriving DecidableEq, Repr

/-- The observable controller state of a `Life` instance: the condition-gated
simulation state and the active play mode (fields `sim_state_condition_` and
`play_mode_` of life.h). -/
structure Controller where
  sim_state : SimulationState
  play_mode_ : PlayMode
deriving DecidableEq, Repr

/-- Modelled from the spec: `Life::RunSimulation` (declared at life.h lines
68-71, body in the absent life.cc). If the simulation is already running in
the requested mode this is a no-op; if it is running in a different mode the
controller signals stop, joins the existing simulation thread, then spawns a
fresh thread in the requested mode with state Running; from Stopped it simply
spawns the thread. Returns the new state and the thread actions performed. -/
def RunSimulation (c : Controller) (mode : PlayMode) : Controller × List ThreadAction :=
  if c.sim_state = SimulationState.kRunning ∧ c.play_mode_ = mode then
    (c, [])
  else
    let stopActions : List ThreadAction :=
      if c.sim_state = SimulationState.kRunning then
        [ThreadAction.signalStop, ThreadAction.joinThread]
      else []
    (⟨SimulationState.kRunning, mode⟩, stopActions ++ [ThreadAction.spawnThread mode])

/-- Modelled from the spec: `Life::StopSimulation` (declared at life.h lines
73-75, body in the absent life.cc). When running, it signals the condition to
Stopped and joins the simulation thread; it does nothing if the simulation is
already stopped. -/
def StopSimulation (c : Controller) : Controller × List ThreadAction :=
  if c.sim_state = SimulationState.kRunning then
    ({ c with sim_state := SimulationState.kStopped },
     [ThreadAction.signalStop, ThreadAction.joinThread])
  else (c, [])

/-- Modelled from the spec: a `Stamp` (stamp.h is not under src/) is a
fixed-size 2D pattern of alive/dead cells plus an anchor offset, immutable
once loaded. -/
structure Stamp where
  swidth : Nat
  sheight : Nat
  anchor_x : Int
  anchor_y : Int
  pattern : Nat → Nat → Bool

/-- The per-cell overlay of `AddStampAtPoint`: a grid cell (cx, cy) takes the
stamp's pattern value when it lies inside the grid bounds and inside the
stamp's footprint placed with its anchor at (x, y); every other cell keeps its
old value, so any stamp portion outside the grid is silently skipped. -/
def applyStampCell (st : Stamp) (x y : Int) (w h : Nat) (old : Nat → Nat → Bool)
    (cx cy : Nat) : Bool :=
  if cx < w ∧ cy < h then
    if 0 ≤ (cx : Int) - (x - st.anchor_x) ∧ (cx : Int) - (x - st.anchor_x) < st.swidth ∧
       0 ≤ (cy : Int) - (y - st.anchor_y) ∧ (cy : Int) - (y - st.anchor_y) < st.sheight then
      st.pattern ((cx : Int) - (x - st.anchor_x)).toNat ((cy : Int) - (y - st.anchor_y)).toNat
    else old cx cy
  else old cx cy

/-- Modelled from the spec: `Life::AddStampAtPoint` (declared at life.h lines
64-66, body in the absent life.cc) overlays the current stamp's pattern onto
the current cell buffer around (x, y), clipping any portion that falls outside
the grid bounds (out-of-range cells are silently skipped, not an error). -/
def AddStampAtPoint (g : GridState) (st : Stamp) (x y : Int) : GridState :=
  { g with cell_in_ := applyStampCell st x y g.width g.height g.cell_in_ }

/-- A 1x1 all-alive stamp used as a concrete evaluation point. -/
def dotStamp : Stamp := ⟨1, 1, 0, 0, fun _ _ => true⟩

/-- A 3x3 glider stamp, one of the predefined patterns. -/
def gliderStamp : Stamp :=
  ⟨3, 3, 1, 1, fun i j => decide ((i, j) = (1, 0) ∨ (i, j) = (2, 1) ∨
      (i, j) = (0, 2) ∨ (i, j) = (1, 2) ∨ (i, j) = (2, 2))⟩

/-- A 2x2 block stamp, one of the predefined patterns. -/
def blockStamp : Stamp := ⟨2, 2, 0, 0, fun _ _ => true⟩

/-- The stamp library of a `Life` instance: the ordered stamp sequence
`stamps_` and the cycling index `current_stamp_index_` (life.h lines
215-216). -/
structure StampLibrary where
  stamps_ : List Stamp
  current_stamp_index_ : Nat

/-- Modelled from the spec: the stamp library populated once at startup from a
fixed internal table (the table lives in the absent life.cc); construction
guarantees at least one stamp and starts the index at 0. -/
def initStampLibrary : StampLibrary := ⟨[gliderStamp, blockStamp], 0⟩

/-- Modelled from the spec: cycling to the next stamp advances the index
modulo the sequence length, wrapping to 0 past the end. -/
def NextStamp (lib : StampLibrary) : StampLibrary :=
  { lib with current_stamp_index_ := (lib.current_stamp_index_ + 1) % lib.stamps_.length }

/-- Modelled from the spec: the current stamp is the one stored at the cycling
index (with an arbitrary default for the unreachable out-of-range case). -/
def CurrentStamp (lib : StampLibrary) : Stamp :=
  lib.stamps_.getD lib.current_stamp_index_ dotStamp

/-- The stamp-library invariant: the sequence is nonempty and the cycling
index is a valid position in it. -/
def StampLibraryInv (lib : StampLibrary) : Prop :=
  lib.stamps_ ≠ [] ∧ lib.current_stamp_index_ < lib.stamps_.length

/-- The seeded single-bit pseudo-random source of life.h lines 150-163; its
only state is the seed `random_bit_seed_`. -/
structure RandomBitGenerator where
  random_bit_seed_ : Nat
deriving DecidableEq, Repr

/-- Modelled from the spec: `RandomBitGenerator::value` (declared at life.h
line 158, body in the absent life.cc) returns the next bit, 0 or 1, of a
rand_r-style pseudo-random stream and mutates the internal seed state as part
of its mechanism. Modelled as one linear-congruential step on the seed mod
2^31, the returned bit drawn from the new seed's higher-order part. -/
def RandomBitGenerator.value (g : RandomBitGenerator) : Nat × RandomBitGenerator :=
  let s := (g.random_bit_seed_ * 1103515245 + 12345) % 2147483648
  ((s / 65536) % 2, ⟨s⟩)

/-- The list of the first n bits produced by successive `value()` calls. -/
def bitSequence (g : RandomBitGenerator) : Nat → List Nat
  | 0 => []
  | n + 1 => (RandomBitGenerator.value g).1 :: bitSequence (RandomBitGenerator.value g).2 n

/-- The pixel dimensions of a pp::Size (pp/size.h collaborator). -/
structure PSize where
  width : Int
  height : Int

/-- A pp::ImageData pixel buffer, abstracted to the size the accessors read. -/
structure ImageData where
  size : PSize

/-- The graphics-facing state of a `Life` instance: the pixel buffer pointer,
which is null (`none`) before the first view resize and after the context is
destroyed (field `pixel_buffer_` of life.h line 206). -/
structure Life where
  pixel_buffer_ : Option ImageData

/-- The accessor `Life::width` of life.h lines 77-79:
`pixel_buffer_ ? pixel_buffer_->size().width() : 0`. -/
def Life.width (l : Life) : Int :=
  match l.pixel_buffer_ with
  | some pb => pb.size.width
  | none => 0

/-- The accessor `Life::height` of life.h lines 80-82:
`pixel_buffer_ ? pixel_buffer_->size().height() : 0`. -/
def Life.height (l : Life) : Int :=
  match l.pixel_buffer_ with
  | some pb => pb.size.height
  | none => 0

/-- C1: one Step computes each interior cell's next state from the current
buffer only (alive stays alive iff its 8-neighborhood count is in the survive
set, dead becomes alive iff the count is in the birth set, otherwise dead),
writes the results into the next buffer without modifying the current buffer
during the pass, and swaps the current/next roles after the pass. -/
theorem updateCells_step_spec (g : GridState) (x y : Nat)
    (hx1 : 1 ≤ x) (hx2 : x + 1 < g.width) (hy1 : 1 ≤ y) (hy2 : y + 1 < g.height) :
    (UpdateCells g).cell_in_ = g.cell_in_ ∧
    (UpdateCells g).cell_out_ x y =
      nextState g.rule (g.cell_in_ x y) (neighborCount g.cell_in_ x y) ∧
    (Step g).cell_in_ = (UpdateCells g).cell_out_ ∧
    (Step g).cell_out_ = g.cell_in_ := by
  refine ⟨rfl, ?_, rfl, rfl⟩
  simp only [UpdateCells]
  rw [if_pos ⟨hx1, hx2, hy1, hy2⟩]

/-- Witness for C1 at the blank 5x5 grid and interior cell (2, 2). -/
theorem updateCells_step_spec_witness :
    (UpdateCells gBlank).cell_out_ 2 2 =
      nextState gBlank.rule (gBlank.cell_in_ 2 2) (neighborCount gBlank.cell_in_ 2 2) ∧
    (Step gBlank).cell_out_ = gBlank.cell_in_ :=
  ⟨(updateCells_step_spec gBlank 2 2 (by decide) (by decide) (by decide) (by decide)).2.1,
   (updateCells_step_spec gBlank 2 2 (by decide) (by decide) (by decide) (by decide)).2.2.2⟩

/-- C3: with rule "23/3" (which parses to the grid's active rule) and no
random seeding, two Steps take the horizontal 3-cell blinker grid back to
exactly its original configuration: a period-2 oscillator. -/
theorem blinker_period_two :
    parseRuleChars ("23/3".toList) = some blinkerGrid.rule ∧
    ∀ x < 5, ∀ y < 5, (Step (Step blinkerGrid)).cell_in_ x y = blinkerGrid.cell_in_ x y := by
  constructor
  · decide
  · decide

/-- Witness for C3 at cell (1, 2), a blinker cell. -/
theorem blinker_period_two_witness :
    (Step (Step blinkerGrid)).cell_in_ 1 2 = blinkerGrid.cell_in_ 1 2 :=
  blinker_period_two.2 1 (by decide) 2 (by decide)

/-- C4: calling RunSimulation while already Running in the same mode is a
no-op; calling it while Running in a different mode signals stop, joins the
existing simulation thread, then spawns a fresh thread in the requested mode
with state Running. -/
theorem runSimulation_restart_spec (c : Controller) (mode : PlayMode)
    (h : c.sim_state = SimulationState.kRunning) :
    (c.play_mode_ = mode → RunSimulation c mode = (c, [])) ∧
    (c.play_mode_ ≠ mode →
      RunSimulation c mode =
        (⟨SimulationState.kRunning, mode⟩,
         [ThreadAction.signalStop, ThreadAction.joinThread, ThreadAction.spawnThread mode])) := by
  constructor
  · intro hm
    simp [RunSimulation, h, hm]
  · intro hm
    simp [RunSimulation, h, hm]

/-- Witness for C4: a running controller, same-mode call is a no-op and a
different-mode call stops, joins, and respawns in the new mode. -/
theorem runSimulation_restart_spec_witness :
    RunSimulation ⟨SimulationState.kRunning, PlayMode.kRandomSeedMode⟩ PlayMode.kRandomSeedMode =
      (⟨SimulationState.kRunning, PlayMode.kRandomSeedMode⟩, []) ∧
    RunSimulation ⟨SimulationState.kRunning, PlayMode.kRandomSeedMode⟩ PlayMode.kStampMode =
      (⟨SimulationState.kRunning, PlayMode.kStampMode⟩,
       [ThreadAction.signalStop, ThreadAction.joinThread,
        ThreadAction.spawnThread PlayMode.kStampMode]) :=
  ⟨(runSimulation_restart_spec _ _ rfl).1 rfl,
   (runSimulation_restart_spec _ _ rfl).2 (by decide)⟩

/-- C5: StopSimulation is idempotent — when the simulation is already
Stopped, calling it is a no-op: the observable controller state is unchanged
and no thread action is performed. -/
theorem stopSimulation_idempotent (c : Controller)
    (h : c.sim_state = SimulationState.kStopped) :
    StopSimulation c = (c, []) := by
  simp [StopSimulation, h]

/-- Witness for C5 at a concrete stopped controller. -/
theorem stopSimulation_idempotent_witness :
    StopSimulation ⟨SimulationState.kStopped, PlayMode.kStampMode⟩ =
      (⟨SimulationState.kStopped, PlayMode.kStampMode⟩, []) :=
  stopSimulation_idempotent _ rfl

/-- C10: when no pixel buffer exists (`pixel_buffer_` is null), the public
accessors width() and height() return 0 instead of dereferencing the null
buffer pointer. -/
theorem width_height_null_safe (l : Life) (h : l.pixel_buffer_ = none) :
    l.width = 0 ∧ l.height = 0 := by
  constructor
  · simp [Life.width, h]
  · simp [Life.height, h]

/-- Witness for C10 at the instance with no pixel buffer. -/
theorem width_height_null_safe_witness :
    Life.width ⟨none⟩ = 0 ∧ Life.height ⟨none⟩ = 0 :=
  width_height_null_safe ⟨none⟩ rfl

/-- Helper: a character list without a '/' has no separator to split at. -/
theorem splitAtSlash_eq_none {cs : List Char} (h : '/' ∉ cs) : splitAtSlash cs = none := by
  induction cs with
  | nil => rfl
  | cons c rest ih =>
    simp only [List.mem_cons, not_or] at h
    simp only [splitAtSlash]
    rw [if_neg (fun hc => h.1 hc.symm), ih h.2]
    rfl

/-- Helper: every character of the input lands in one of the two halves
produced by splitting at the first '/', unless it is a '/' itself. -/
theorem splitAtSlash_mem {cs sv bt : List Char} (h : splitAtSlash cs = some (sv, bt)) :
    ∀ c ∈ cs, c = '/' ∨ c ∈ sv ∨ c ∈ bt := by
  induction cs generalizing sv bt with
  | nil => simp [splitAtSlash] at h
  | cons a rest ih =>
    intro c hc
    simp only [splitAtSlash] at h
    by_cases ha : a = '/'
    · rw [if_pos ha] at h
      cases h
      rcases List.mem_cons.mp hc with rfl | hmem
      · exact Or.inl ha
      · exact Or.inr (Or.inr hmem)
    · rw [if_neg ha] at h
      rcases Option.map_eq_some'.mp h with ⟨⟨sv2, bt2⟩, hsp, hpair⟩
      cases hpair
      rcases List.mem_cons.mp hc with rfl | hmem
      · exact Or.inr (Or.inl (List.mem_cons_self _ _))
      · rcases ih hsp c hmem with h1 | h1 | h1
        · exact Or.inl h1
        · exact Or.inr (Or.inl (List.mem_cons_of_mem _ h1))
        · exact Or.inr (Or.inr h1)

/-- C2: every malformed rule string — empty, containing a non-digit character
other than the '/' separator, or missing the separator entirely — leaves the
previously active survive/birth rule completely unchanged; the operation is a
total function, so it never raises a fatal error and signals failure only by
leaving state unchanged. -/
theorem setAutomatonRules_malformed (g : GridState) (s : String)
    (h : s.toList = [] ∨ (∃ c ∈ s.toList, c ≠ '/' ∧ isRuleDigit c = false) ∨
      '/' ∉ s.toList) :
    SetAutomatonRules g s = g := by
  have hnone : parseRuleChars s.toList = none := by
    rcases h with h | ⟨c, hc, hne, hnd⟩ | h
    · rw [h]; rfl
    · cases hsp : splitAtSlash s.toList with
      | none =>
        simp only [parseRuleChars]
        rw [hsp]
        rfl
      | some p =>
        obtain ⟨sv, bt⟩ := p
        simp only [parseRuleChars]
        rw [hsp]
        show checkRuleHalves sv bt = none
        rcases splitAtSlash_mem hsp c hc with h1 | h1 | h1
        · exact absurd h1 hne
        · have hall : sv.all isRuleDigit = false :=
            List.all_eq_false.mpr ⟨c, h1, by simp [hnd]⟩
          have hcond : ¬(sv ≠ [] ∧ bt ≠ [] ∧ sv.all isRuleDigit ∧ bt.all isRuleDigit) := by
            intro hcond
            simp [hall] at hcond
          simp only [checkRuleHalves]
          rw [if_neg hcond]
        · have hall : bt.all isRuleDigit = false :=
            List.all_eq_false.mpr ⟨c, h1, by simp [hnd]⟩
          have hcond : ¬(sv ≠ [] ∧ bt ≠ [] ∧ sv.all isRuleDigit ∧ bt.all isRuleDigit) := by
            intro hcond
            simp [hall] at hcond
          simp only [checkRuleHalves]
          rw [if_neg hcond]
    · simp only [parseRuleChars]
      rw [splitAtSlash_eq_none h]
      rfl
  simp only [SetAutomatonRules]
  rw [hnone]

/-- Witness for C2: the empty string, "garbage", and separator-less "23" all
leave the rule state of the blank grid unchanged. -/
theorem setAutomatonRules_malformed_witness :
    SetAutomatonRules gBlank "" = gBlank ∧
    SetAutomatonRules gBlank "garbage" = gBlank ∧
    SetAutomatonRules gBlank "23" = gBlank :=
  ⟨setAutomatonRules_malformed gBlank "" (by decide),
   setAutomatonRules_malformed gBlank "garbage" (by decide),
   setAutomatonRules_malformed gBlank "23" (by decide)⟩

/-- Helper: the per-cell stamp overlay is idempotent. -/
theorem applyStampCell_idem (st : Stamp) (x y : Int) (w h : Nat)
    (old : Nat → Nat → Bool) :
    applyStampCell st x y w h (applyStampCell st x y w h old) =
      applyStampCell st x y w h old := by
  funext cx cy
  simp only [applyStampCell]
  split_ifs <;> rfl

/-- C6: stamp application is an idempotent overlay — applying a stamp twice at
the same point yields exactly the grid obtained by applying it once — and any
portion of the stamp falling outside the grid bounds is silently skipped:
cells outside the bounds are never modified, and the operation is total
(clipping, never an error). -/
theorem addStampAtPoint_idempotent_clipped (g : GridState) (st : Stamp) (x y : Int) :
    AddStampAtPoint (AddStampAtPoint g st x y) st x y = AddStampAtPoint g st x y ∧
    ∀ cx cy : Nat, g.width ≤ cx ∨ g.height ≤ cy →
      (AddStampAtPoint g st x y).cell_in_ cx cy = g.cell_in_ cx cy := by
  constructor
  · show GridState.mk g.width g.height
        (applyStampCell st x y g.width g.height
          (applyStampCell st x y g.width g.height g.cell_in_))
        g.cell_out_ g.rule = AddStampAtPoint g st x y
    rw [applyStampCell_idem]
    rfl
  · intro cx cy hcc
    show applyStampCell st x y g.width g.height g.cell_in_ cx cy = g.cell_in_ cx cy
    have hnb : ¬(cx < g.width ∧ cy < g.height) := by
      rcases hcc with h | h <;> omega
    simp only [applyStampCell]
    rw [if_neg hnb]

/-- Witness for C6: the dot stamp applied twice at (2, 2) on the blank grid
equals a single application, and the out-of-bounds cell (7, 0) is untouched. -/
theorem addStampAtPoint_idempotent_clipped_witness :
    AddStampAtPoint (AddStampAtPoint gBlank dotStamp 2 2) dotStamp 2 2 =
      AddStampAtPoint gBlank dotStamp 2 2 ∧
    (AddStampAtPoint gBlank dotStamp 2 2).cell_in_ 7 0 = gBlank.cell_in_ 7 0 :=
  ⟨(addStampAtPoint_idempotent_clipped gBlank dotStamp 2 2).1,
   (addStampAtPoint_idempotent_clipped gBlank dotStamp 2 2).2 7 0 (by decide)⟩

/-- C7: the stamp library holds at least one stamp after construction and its
cycling index is always a valid position: the invariant holds for the initial
library, cycling advances the index modulo the sequence length (wrapping to 0
past the end) and preserves the invariant, and the current stamp is exactly the
one stored at the index. -/
theorem stampLibrary_invariant :
    StampLibraryInv initStampLibrary ∧
    ∀ lib : StampLibrary, ∀ hInv : StampLibraryInv lib,
      StampLibraryInv (NextStamp lib) ∧
      (NextStamp lib).current_stamp_index_ =
        (lib.current_stamp_index_ + 1) % lib.stamps_.length ∧
      (lib.current_stamp_index_ + 1 = lib.stamps_.length →
        (NextStamp lib).current_stamp_index_ = 0) ∧
      CurrentStamp lib = lib.stamps_.get ⟨lib.current_stamp_index_, hInv.2⟩ := by
  constructor
  · exact ⟨by simp [initStampLibrary], by simp [initStampLibrary]⟩
  · intro lib hInv
    have hlen : 0 < lib.stamps_.length := List.length_pos.mpr hInv.1
    refine ⟨⟨hInv.1, Nat.mod_lt _ hlen⟩, rfl, ?_, ?_⟩
    · intro hwrap
      simp [NextStamp, hwrap]
    · rw [CurrentStamp, List.getD_eq_getElem?_getD, List.getElem?_eq_getElem hInv.2,
        Option.getD_some, List.get_eq_getElem]

/-- Witness for C7: cycling once from the initial two-stamp library keeps the
invariant and advances the index from 0 to 1 mod 2. -/
theorem stampLibrary_invariant_witness :
    StampLibraryInv (NextStamp initStampLibrary) ∧
    (NextStamp initStampLibrary).current_stamp_index_ =
      (initStampLibrary.current_stamp_index_ + 1) % initStampLibrary.stamps_.length :=
  ⟨(stampLibrary_invariant.2 initStampLibrary
      ⟨by simp [initStampLibrary], by simp [initStampLibrary]⟩).1,
   (stampLibrary_invariant.2 initStampLibrary
      ⟨by simp [initStampLibrary], by simp [initStampLibrary]⟩).2.1⟩

/-- Helper: every bit the generator produces is 0 or 1. -/
theorem bitSequence_bits : ∀ (n : Nat) (g : RandomBitGenerator),
    ∀ b ∈ bitSequence g n, b = 0 ∨ b = 1 := by
  intro n
  induction n with
  | zero =>
    intro g b hb
    simp [bitSequence] at hb
  | succ m ih =>
    intro g b hb
    simp only [bitSequence, List.mem_cons] at hb
    rcases hb with rfl | hb
    · have hlt : (RandomBitGenerator.value g).1 < 2 := by
        simp only [RandomBitGenerator.value]
        exact Nat.mod_lt _ (by norm_num)
      omega
    · exact ih _ b hb

/-- C8: the bit stream of RandomBitGenerator is a deterministic function of
the seed alone — two generators with equal seeds produce identical sequences —
every returned value is 0 or 1, and each call mutates the internal seed state
(the successor state never equals the input state), so value() is not
idempotent. -/
theorem randomBitGenerator_spec (g1 g2 : RandomBitGenerator) (n : Nat)
    (h : g1.random_bit_seed_ = g2.random_bit_seed_) :
    bitSequence g1 n = bitSequence g2 n ∧
    (∀ b ∈ bitSequence g1 n, b = 0 ∨ b = 1) ∧
    (RandomBitGenerator.value g1).2 ≠ g1 := by
  have hg : g1 = g2 := by
    cases g1
    cases g2
    simp_all
  subst hg
  refine ⟨rfl, bitSequence_bits n g1, ?_⟩
  intro hEq
  have hseed : (g1.random_bit_seed_ * 1103515245 + 12345) % 2147483648 =
      g1.random_bit_seed_ := by
    have hproj := congrArg RandomBitGenerator.random_bit_seed_ hEq
    simpa [RandomBitGenerator.value] using hproj
  omega

/-- Witness for C8 at seed 42 and four calls. -/
theorem randomBitGenerator_spec_witness :
    bitSequence ⟨42⟩ 4 = bitSequence ⟨42⟩ 4 ∧
    (RandomBitGenerator.value ⟨42⟩).2 ≠ (⟨42⟩ : RandomBitGenerator) :=
  ⟨(randomBitGenerator_spec ⟨42⟩ ⟨42⟩ 4 rfl).1,
   (randomBitGenerator_spec ⟨42⟩ ⟨42⟩ 4 rfl).2.2⟩
